import Mathlib

/-!
Verification of the `go-vsm` repository (package `vsm`, file `vsm/vsm.go`).

The package is an in-memory vector-space-model search engine: documents are
trained into a corpus together with per-term document-frequency statistics,
and `Search` ranks the corpus against a query by TF-IDF weighted cosine
similarity.

Modelling conventions used throughout this file:

* Go strings are Lean `String`s.  `strings.Split(s, " ")`, `strings.TrimSpace`
  and `strings.ToLower` are transcribed below (`goSplitSpace`, `goTrimSpace`,
  `goToLower`); `ToLower` is modelled on the ASCII range, which covers every
  sentence appearing in this development.
* Go maps (`map[string]term`, `map[string]uint64`) are association lists with
  at most one entry per key (`mapGet` / `mapSet` / `mapIncr` mirror Go map
  read, write and `m[k]++`).  Go iterates maps in unspecified order; every
  fold taken over a map below is either order-independent (sums over ℝ,
  once-per-unique-term increments) or performed in insertion order.
* `uint64` counters are `Nat`.  `docsSeen` is bounded by the corpus length,
  which Go bounds by the maximum slice length (below `2 ^ 63`), so `uint64`
  wrap-around is unreachable and is not modelled.
* `float64` arithmetic in `Search` is modelled over ℝ (`math.Log` as
  `Real.log`, `math.Sqrt` as `Real.sqrt`, `math.Pow (w, 2)` as `w ^ 2`).
* The pluggable `transform.Transformer` is modelled as an optional function
  `String → Except String String` (the transformed text, or the error that
  `transform.String` reports).
* The two channel-consuming training loops that the repository's revisions
  expose (`Train` in `vsm.go`, `DynamicTraining` in the later revision) are
  modelled as functions over the list of select outcomes the Go scheduler
  hands to the loop, producing the final engine state, the list of results
  published on the output channel, and whether the output channel was closed.
-/

set_option maxHeartbeats 1000000

open scoped Classical

namespace GoVSM

/-! ## Go string primitives used by `vsm.go` -/

/-- White-space test of Go `unicode.IsSpace` (the rune set that
`strings.TrimSpace` strips): ASCII space, `\t`, `\n`, `\v`, `\f`, `\r`,
NEL, NBSP and the Unicode `White_Space` code points. -/
def goIsSpace (c : Char) : Bool :=
  c = ' ' || c = '\t' || c = '\n' || c.val = 11 || c.val = 12 || c = '\r' ||
    c.val = 0x85 || c.val = 0xA0 || c.val = 0x1680 ||
    (0x2000 ≤ c.val && c.val ≤ 0x200A) ||
    c.val = 0x2028 || c.val = 0x2029 || c.val = 0x202F || c.val = 0x205F ||
    c.val = 0x3000

/-- Go `strings.TrimSpace`: drop leading and trailing white space. -/
def goTrimSpace (s : String) : String :=
  String.mk
    (((s.toList.dropWhile fun c => goIsSpace c).reverse.dropWhile
        fun c => goIsSpace c).reverse)

/-- Case-fold one character as Go `strings.ToLower` does on the ASCII range. -/
def goToLowerChar (c : Char) : Char :=
  if 'A' ≤ c ∧ c ≤ 'Z' then Char.ofNat (c.toNat + 32) else c

/-- Go `strings.ToLower` (ASCII range; every string in this development is
ASCII). -/
def goToLower (s : String) : String :=
  String.mk (s.toList.map goToLowerChar)

/-- Helper for `goSplitSpace`: split a character list at every space,
accumulating the current field in reverse. -/
def splitSpaceAux (cur : List Char) : List Char → List (List Char)
  | [] => [cur.reverse]
  | c :: rest =>
      if c = ' ' then cur.reverse :: splitSpaceAux [] rest
      else splitSpaceAux (c :: cur) rest

/-- Go `strings.Split(s, " ")`: split around every single space character,
keeping empty fields (`Split("", " ") = [""]`). -/
def goSplitSpace (s : String) : List String :=
  (splitSpaceAux [] s.toList).map String.mk

/-- The per-token normalization both code paths apply after splitting:
`strings.ToLower(strings.TrimSpace(trm))`. -/
def normTok (trm : String) : String :=
  goToLower (goTrimSpace trm)

/-! ## Go map operations (association lists, one entry per key) -/

/-- Read from a Go map: the value at the first (unique) entry for `k`. -/
def mapGet (m : List (String × Nat)) (k : String) : Option Nat :=
  match m with
  | [] => none
  | (k', v) :: rest => if k' = k then some v else mapGet rest k

/-- Write to a Go map: replace the entry for `k`, or append a fresh one. -/
def mapSet (m : List (String × Nat)) (k : String) (v : Nat) :
    List (String × Nat) :=
  match m with
  | [] => [(k, v)]
  | (k', v') :: rest =>
      if k' = k then (k, v) :: rest else (k', v') :: mapSet rest k v

/-- Go `m[k]++`: missing keys read as the `uint64` zero value. -/
def mapIncr (m : List (String × Nat)) (k : String) : List (String × Nat) :=
  mapSet m k ((mapGet m k).getD 0 + 1)

/-! ## Data model (`vsm.go` lines 13-70) -/

/-- Go `Document{Sentence, Class}` (`vsm.go` lines 13-16). -/
structure Document where
  Sentence : String
  Class : String
deriving Repr, DecidableEq

/-- Go internal `document` (`vsm.go` lines 44-48): the public `Document`
embedded next to the record's own term-frequency map. -/
structure document extends Document where
  termFreq : List (String × Nat)
deriving Repr, DecidableEq

/-- Go `VSM` (`vsm.go` lines 50-59).  The `terms` store maps a term to its
`docsSeen` count (the single field of the Go `term` struct); the mutexes
guard concurrent access and carry no sequential meaning. -/
structure VSM where
  terms : List (String × Nat)
  docs : List document
  docsCount : Nat
  transformer : Option (String → Except String String)

/-- Go `New` (`vsm.go` lines 61-70). -/
def New (t : Option (String → Except String String)) : VSM :=
  { terms := [], docs := [], docsCount := 0, transformer := t }

/-- Go `(*VSM).sanitize` (`vsm.go` lines 201-212): apply the pluggable
transformer when present, otherwise return the sentence unchanged. -/
def VSM.sanitize (v : VSM) (sentence : String) : Except String String :=
  match v.transformer with
  | some tf =>
      match tf sentence with
      | .error e => .error e
      | .ok sanitized => .ok sanitized
  | none => .ok sentence

/-! ## Training (`vsm.go` lines 164-199) -/

/-- The term-frequency-building loop of `Search` (`vsm.go` lines 105-109):
for every field of the split sentence, normalize it and bump
`queryDoc.termFreq[t]`. -/
def queryFreqLoop (tf : List (String × Nat)) :
    List String → List (String × Nat)
  | [] => tf
  | trm :: rest => queryFreqLoop (mapIncr tf (normTok trm)) rest

/-- The first loop of `train` (`vsm.go` lines 174-184) over the split
sentence, threading the state triple (global `terms` store, the document's
`termFreq`, the `seenTerms` set).  `seenTerms` is a Go set
(`map[string]struct{}`); it is modelled as a duplicate-free list in first
insertion order. -/
def trainTermLoop (st : List (String × Nat) × List (String × Nat) × List String) :
    List String → List (String × Nat) × List (String × Nat) × List String
  | [] => st
  | trm :: rest =>
      let t := normTok trm
      let terms' := if (mapGet st.1 t).isSome then st.1 else mapSet st.1 t 0
      let tf' := mapIncr st.2.1 t
      let seen' := if t ∈ st.2.2 then st.2.2 else st.2.2 ++ [t]
      trainTermLoop (terms', tf', seen') rest

/-- The second loop of `train` (`vsm.go` lines 186-190): bump `docsSeen`
once for every unique term of this document. -/
def trainSeenLoop (terms : List (String × Nat)) :
    List String → List (String × Nat)
  | [] => terms
  | trm :: rest =>
      trainSeenLoop (mapSet terms trm ((mapGet terms trm).getD 0 + 1)) rest

/-- Go `(*VSM).train` (`vsm.go` lines 164-199): sanitize, tokenize, update
the term statistics, append the record, refresh `docsCount`.  Returns the
new engine state paired with the returned error. -/
def VSM.train (v : VSM) (dc : Document) : VSM × Option String :=
  match v.sanitize dc.Sentence with
  | .error err => (v, some err)
  | .ok sentence =>
      let st := trainTermLoop (v.terms, [], []) (goSplitSpace sentence)
      let terms2 := trainSeenLoop st.1 st.2.2
      let docs' := v.docs ++ [{ toDocument := dc, termFreq := st.2.1 }]
      ({ terms := terms2, docs := docs', docsCount := docs'.length,
         transformer := v.transformer }, none)

/-- Go `(*VSM).StaticTraining` (later revision of `vsm.go`): its body is
token-for-token the body of `train` above. -/
def VSM.StaticTraining (v : VSM) (dc : Document) : VSM × Option String :=
  v.train dc

/-- Run a sequence of `train` calls, keeping only the final state. -/
def trainAll (v : VSM) : List Document → VSM
  | [] => v
  | d :: rest => trainAll (v.train d).1 rest

/-- Run a sequence of `train` calls, collecting each call's returned error. -/
def trainAllWithResults (v : VSM) : List Document → VSM × List (Option String)
  | [] => (v, [])
  | d :: rest =>
      let p := v.train d
      let q := trainAllWithResults p.1 rest
      (q.1, p.2 :: q.2)

/-! ## Ranking (`vsm.go` lines 97-162), over ℝ -/

/-- The IDF factor computed at both `math.Log` call sites
(`vsm.go` lines 120 and 140): `Log(float64(totalDocs) / float64(docsSeen))`. -/
noncomputable def idf (totalDocs docsSeen : Nat) : ℝ :=
  Real.log ((totalDocs : ℝ) / (docsSeen : ℝ))

/-- The query-magnitude loop of `Search` (`vsm.go` lines 113-125): for every
entry of `queryDoc.termFreq`, skip terms missing from the statistics store,
otherwise accumulate the squared TF-IDF weight.  Addition over ℝ is
commutative, so the Go map's unspecified iteration order is immaterial. -/
noncomputable def querySumLoop (store : List (String × Nat)) (totalDocs : Nat) :
    List (String × Nat) → ℝ
  | [] => 0
  | (trm, freq) :: rest =>
      match mapGet store trm with
      | none => querySumLoop store totalDocs rest
      | some ds =>
          ((freq : ℝ) * idf totalDocs ds) ^ 2 + querySumLoop store totalDocs rest

/-- The query term-frequency map `Search` builds for an already-sanitized
query (`vsm.go` lines 98, 105-109). -/
def queryTFOf (query' : String) : List (String × Nat) :=
  queryFreqLoop [] (goSplitSpace query')

/-- The query magnitude `Search` computes (`vsm.go` lines 113-127):
`Sqrt(querySum)`. -/
noncomputable def queryMagOf (v : VSM) (query' : String) : ℝ :=
  Real.sqrt (querySumLoop v.terms v.docsCount (queryTFOf query'))

/-- The per-document loop body of `Search` (`vsm.go` lines 137-149):
iterate the record's own `termFreq`, accumulating (`docSum`, `coeff`).
A store miss reads the `term` zero value (`docsSeen = 0`), exactly as the
ignored second result of `v.terms.Get` does. -/
noncomputable def docSumsLoop (store : List (String × Nat)) (totalDocs : Nat)
    (queryTF : List (String × Nat)) : List (String × Nat) → ℝ × ℝ
  | [] => (0, 0)
  | (trm, freq) :: rest =>
      let prev := docSumsLoop store totalDocs queryTF rest
      let ds := (mapGet store trm).getD 0
      let weight := (freq : ℝ) * idf totalDocs ds
      let queryTermWeight := (((mapGet queryTF trm).getD 0 : Nat) : ℝ) * idf totalDocs ds
      (weight ^ 2 + prev.1, weight * queryTermWeight + prev.2)

/-- The cosine similarity `Search` assigns to one corpus record
(`vsm.go` lines 151-153): `coeff / (docMag * queryMag)`. -/
noncomputable def simOf (store : List (String × Nat)) (totalDocs : Nat)
    (queryTF : List (String × Nat)) (queryMag : ℝ) (d : document) : ℝ :=
  let p := docSumsLoop store totalDocs queryTF d.termFreq
  p.2 / (Real.sqrt p.1 * queryMag)

/-- The best-document selection loop of `Search` (`vsm.go` lines 129-158):
strict `sim > maxSim` replacement starting from `maxSim = 0`, returning a
copy of the winning record's public fields. -/
noncomputable def searchLoop (store : List (String × Nat)) (totalDocs : Nat)
    (queryTF : List (String × Nat)) (queryMag : ℝ)
    (found : Option Document) (maxSim : ℝ) : List document → Option Document
  | [] => found
  | d :: rest =>
      if maxSim < simOf store totalDocs queryTF queryMag d then
        searchLoop store totalDocs queryTF queryMag
          (some { Sentence := d.Sentence, Class := d.Class })
          (simOf store totalDocs queryTF queryMag d) rest
      else
        searchLoop store totalDocs queryTF queryMag found maxSim rest

/-- Go `(*VSM).Search` (`vsm.go` lines 97-162). -/
noncomputable def VSM.Search (v : VSM) (query : String) :
    Except String (Option Document) :=
  match v.sanitize query with
  | .error err => .error err
  | .ok query' =>
      .ok (searchLoop v.terms v.docsCount (queryTFOf query') (queryMagOf v query')
            none 0 v.docs)

/-- The cosine similarity `Search` assigns to corpus record `d` for the
already-sanitized query `query'`: the abbreviation used to state the
selection-policy theorem. -/
noncomputable def docSim (v : VSM) (query' : String) (d : document) : ℝ :=
  simOf v.terms v.docsCount (queryTFOf query') (queryMagOf v query') d

/-! ### Arguments of the `math.Log` calls `Search` performs

`searchLogPairs` replays `Search`'s exact control flow and records, for every
`math.Log(float64(totalDocs) / float64(docsSeen))` call it reaches, the pair
`(totalDocs, docsSeen)`.  A logarithm of zero is evaluated exactly when a
recorded pair has first component `0` and second component positive. -/

/-- `math.Log` arguments reached by the query loop (`vsm.go` line 120). -/
def queryLogPairs (store : List (String × Nat)) (totalDocs : Nat) :
    List (String × Nat) → List (Nat × Nat)
  | [] => []
  | (trm, _) :: rest =>
      match mapGet store trm with
      | none => queryLogPairs store totalDocs rest
      | some ds => (totalDocs, ds) :: queryLogPairs store totalDocs rest

/-- `math.Log` arguments reached by one document's loop (`vsm.go` line 140). -/
def docLogPairs (store : List (String × Nat)) (totalDocs : Nat) :
    List (String × Nat) → List (Nat × Nat)
  | [] => []
  | (trm, _) :: rest =>
      (totalDocs, (mapGet store trm).getD 0) :: docLogPairs store totalDocs rest

/-- All `math.Log` arguments one `Search` call evaluates. -/
def searchLogPairs (v : VSM) (query : String) : List (Nat × Nat) :=
  match v.sanitize query with
  | .error _ => []
  | .ok query' =>
      queryLogPairs v.terms v.docsCount (queryTFOf query') ++
        (v.docs.map fun d => docLogPairs v.terms v.docsCount d.termFreq).flatten

/-! ## Streaming training

Both revisions' channel loops are modelled as functions of the list of
select outcomes the scheduler delivers, returning the final engine state,
the results published on the output channel, and whether the deferred
`close(trainCh)` ran (the loop returned). -/

/-- Go `TrainResult{Doc, Err}` (`vsm.go` lines 72-75). -/
structure TrainResult where
  Doc : Document
  Err : Option String
deriving Repr, DecidableEq

/-- One select outcome inside `Train`'s loop (`vsm.go` lines 84-90): either
`docCh` delivers a value (a closed channel keeps delivering zero-value
`Document`s — this revision never inspects the receive's `ok` flag), or
`ctx.Done()` fires with `ctx.Err() = err`. -/
inductive TrainEvent where
  | recv (doc : Document)
  | cancelled (err : String)
deriving Repr, DecidableEq

/-- Go `(*VSM).Train` (`vsm.go` lines 77-95): train every received document
and publish a `TrainResult` for it (this revision's send blocks until a
consumer accepts it); on cancellation publish one final `TrainResult`
carrying `ctx.Err()` and return, closing the output channel.  An exhausted
event list leaves the goroutine blocked in `select` (output not closed). -/
def VSM.Train (v : VSM) : List TrainEvent → VSM × List TrainResult × Bool
  | [] => (v, [], false)
  | .recv doc :: rest =>
      let p := v.train doc
      let q := p.1.Train rest
      (q.1, { Doc := doc, Err := p.2 } :: q.2.1, q.2.2)
  | .cancelled err :: _ =>
      (v, [{ Doc := { Sentence := "", Class := "" }, Err := some err }], true)

/-- Go `TrainingResult{Doc, Err}` (later revision of `vsm.go`). -/
structure TrainingResult where
  Doc : Document
  Err : Option String
deriving Repr, DecidableEq

/-- One select outcome inside `DynamicTraining`'s loop (later revision of
`vsm.go`, `example_test.go` lines 296-326): `docCh` delivers a value (with
`consumerReady` telling whether a receiver is waiting on `trainCh`, which
decides the inner send-or-default select), or `docCh` is closed (`ok =
false`), or `ctx.Done()` fires. -/
inductive DynEvent where
  | recv (doc : Document) (consumerReady : Bool)
  | closed
  | ctxDone
deriving Repr, DecidableEq

/-- Whether a `DynEvent` is a value delivery. -/
def DynEvent.isRecv : DynEvent → Bool
  | .recv _ _ => true
  | .closed => false
  | .ctxDone => false

/-- Go `(*VSM).DynamicTraining` (later revision of `vsm.go`,
`example_test.go` lines 296-326): on a received value, train it
(`StaticTraining` is evaluated once on entering the inner select) and
publish the result only if a consumer is ready, else drop it; return —
closing the output channel — when the input channel is closed or the
context is done, publishing nothing further. -/
def VSM.DynamicTraining (v : VSM) : List DynEvent → VSM × List TrainingResult × Bool
  | [] => (v, [], false)
  | .recv doc ready :: rest =>
      let p := v.StaticTraining doc
      let q := p.1.DynamicTraining rest
      (q.1, (if ready then [{ Doc := doc, Err := p.2 }] else []) ++ q.2.1, q.2.2)
  | .closed :: _ => (v, [], true)
  | .ctxDone :: _ => (v, [], true)

/-! ## Named instances used by the concrete theorems -/

/-- Scenario A corpus, first document (label `d1`). -/
def docD1 : Document :=
  { Sentence := "Shipment of gold damaged in a fire.", Class := "d1" }

/-- Scenario A corpus, second document (label `d2`). -/
def docD2 : Document :=
  { Sentence := "Delivery of silver arrived in a silver truck.", Class := "d2" }

/-- Scenario A corpus, third document (label `d3`). -/
def docD3 : Document :=
  { Sentence := "Shipment of gold arrived in a truck.", Class := "d3" }

/-- The Scenario A engine: no normalizer, trained on `d1`, `d2`, `d3`. -/
def vScenarioA : VSM := trainAll (New none) [docD1, docD2, docD3]

/-- The term statistics store after training Scenario A's three documents
(each value is the number of the three documents containing the term). -/
def storeA : List (String × Nat) :=
  [("shipment", 2), ("of", 3), ("gold", 2), ("damaged", 1), ("in", 3), ("a", 3),
   ("fire.", 1), ("delivery", 1), ("silver", 1), ("arrived", 2), ("truck.", 2)]

/-- The term-frequency map of the Scenario A query `"gold silver truck."`. -/
def queryTFA : List (String × Nat) := [("gold", 1), ("silver", 1), ("truck.", 1)]

/-- The corpus record `train` builds for `d1`. -/
def recD1 : document :=
  { Sentence := "Shipment of gold damaged in a fire.", Class := "d1",
    termFreq := [("shipment", 1), ("of", 1), ("gold", 1), ("damaged", 1),
      ("in", 1), ("a", 1), ("fire.", 1)] }

/-- The corpus record `train` builds for `d2` (note `silver` occurs twice). -/
def recD2 : document :=
  { Sentence := "Delivery of silver arrived in a silver truck.", Class := "d2",
    termFreq := [("delivery", 1), ("of", 1), ("silver", 2), ("arrived", 1),
      ("in", 1), ("a", 1), ("truck.", 1)] }

/-- The corpus record `train` builds for `d3`. -/
def recD3 : document :=
  { Sentence := "Shipment of gold arrived in a truck.", Class := "d3",
    termFreq := [("shipment", 1), ("of", 1), ("gold", 1), ("arrived", 1),
      ("in", 1), ("a", 1), ("truck.", 1)] }

/-- A transformer stub that fails on every sentence (the shape of
`testingTransformer{err: errors.New(...)}` in the repository's tests). -/
def stubFail : String → Except String String :=
  fun _ => .error ("stub failure")

/-- Number of corpus records whose term-frequency map has an entry for `t`
(i.e. whose normalized token set contains `t`). -/
def countDocs (docs : List document) (t : String) : Nat :=
  (docs.filter fun d => (mapGet d.termFreq t).isSome).length

/-- A tiny engine state used to witness the selection-policy theorem. -/
def vSel : VSM :=
  { terms := [("q", 1)],
    docs := [{ Sentence := "s", Class := "c", termFreq := [("q", 1)] }],
    docsCount := 2, transformer := none }

/-- A document delivered before the channel closes, in the streaming
witness. -/
def docEvX : Document := { Sentence := "x", Class := "y" }

/-- A stray document event after the channel closes, in the streaming
witness. -/
def docEvZ : Document := { Sentence := "z", Class := "w" }

/-! ## Map lemmas -/

theorem mapGet_mapSet_self (m : List (String × Nat)) (k : String) (v : Nat) :
    mapGet (mapSet m k v) k = some v := by
  induction m with
  | nil => simp [mapGet, mapSet]
  | cons p rest ih =>
      obtain ⟨k', v'⟩ := p
      by_cases h : k' = k
      · subst h; simp [mapGet, mapSet]
      · simp [mapGet, mapSet, h, ih]

theorem mapGet_mapSet_ne (m : List (String × Nat)) (k k' : String) (v : Nat)
    (h : k' ≠ k) : mapGet (mapSet m k v) k' = mapGet m k' := by
  have h' : k ≠ k' := fun hh => h hh.symm
  induction m with
  | nil => simp [mapGet, mapSet, h']
  | cons p rest ih =>
      obtain ⟨k'', v''⟩ := p
      by_cases hk : k'' = k
      · subst hk
        simp [mapGet, mapSet, h']
      · simp [mapGet, mapSet, hk, ih]

/-! ## Training-loop lemmas -/

theorem trainTermLoop_tf (toks : List String) :
    ∀ st : List (String × Nat) × List (String × Nat) × List String,
      (trainTermLoop st toks).2.1 = queryFreqLoop st.2.1 toks := by
  induction toks with
  | nil => intro st; rfl
  | cons trm rest ih =>
      intro st
      simpa [trainTermLoop, queryFreqLoop] using ih _

theorem trainTermLoop_terms_getD (toks : List String) :
    ∀ st, ∀ t : String,
      (mapGet (trainTermLoop st toks).1 t).getD 0 = (mapGet st.1 t).getD 0 := by
  induction toks with
  | nil => intro st t; rfl
  | cons trm rest ih =>
      intro st t
      rw [trainTermLoop]
      refine (ih _ t).trans ?_
      rcases hp : mapGet st.1 (normTok trm) with _ | val
      · simp only [hp, Option.isSome_none, Bool.false_eq_true, if_false]
        by_cases ht : t = normTok trm
        · subst ht
          rw [mapGet_mapSet_self, hp]
          rfl
        · rw [mapGet_mapSet_ne _ _ _ _ ht]
      · simp [hp]

theorem trainTermLoop_seen_mem (toks : List String) :
    ∀ st, ∀ t : String,
      (t ∈ (trainTermLoop st toks).2.2 ↔ t ∈ st.2.2 ∨ t ∈ toks.map normTok) := by
  induction toks with
  | nil => intro st t; simp [trainTermLoop]
  | cons trm rest ih =>
      intro st t
      rw [trainTermLoop]
      refine (ih _ t).trans ?_
      by_cases hs : normTok trm ∈ st.2.2
      · simp only [hs, if_true, List.map_cons, List.mem_cons]
        constructor
        · rintro (h | h)
          · exact Or.inl h
          · exact Or.inr (Or.inr h)
        · rintro (h | h | h)
          · exact Or.inl h
          · exact Or.inl (h ▸ hs)
          · exact Or.inr h
      · simp only [hs, if_false, List.mem_append, List.mem_singleton,
          List.map_cons, List.mem_cons]
        tauto

theorem trainTermLoop_seen_nodup (toks : List String) :
    ∀ st, (st.2.2 : List String).Nodup → (trainTermLoop st toks).2.2.Nodup := by
  induction toks with
  | nil => intro st h; exact h
  | cons trm rest ih =>
      intro st h
      rw [trainTermLoop]
      refine ih _ ?_
      by_cases hs : normTok trm ∈ st.2.2
      · simpa [hs] using h
      · simp only [hs, if_false]
        simpa [List.nodup_append] using ⟨h, hs⟩

theorem trainSeenLoop_not_mem (seen : List String) :
    ∀ terms, ∀ t : String, t ∉ seen →
      mapGet (trainSeenLoop terms seen) t = mapGet terms t := by
  induction seen with
  | nil => intro terms t _; rfl
  | cons trm rest ih =>
      intro terms t ht
      rw [trainSeenLoop]
      have h1 : t ≠ trm := fun h => ht (h ▸ List.mem_cons_self _ _)
      have h2 : t ∉ rest := fun h => ht (List.mem_cons_of_mem _ h)
      rw [ih _ t h2, mapGet_mapSet_ne _ _ _ _ h1]

theorem trainSeenLoop_getD (seen : List String) :
    ∀ terms, ∀ t : String, seen.Nodup →
      (mapGet (trainSeenLoop terms seen) t).getD 0 =
        (mapGet terms t).getD 0 + (if t ∈ seen then 1 else 0) := by
  induction seen with
  | nil => intro terms t _; simp [trainSeenLoop]
  | cons trm rest ih =>
      intro terms t hnd
      rw [trainSeenLoop]
      have hrest : rest.Nodup := hnd.of_cons
      by_cases ht : t = trm
      · subst ht
        have htr : t ∉ rest := (List.nodup_cons.mp hnd).1
        rw [trainSeenLoop_not_mem _ _ _ htr, mapGet_mapSet_self]
        simp [htr]
      · rw [ih _ t hrest, mapGet_mapSet_ne _ _ _ _ ht]
        simp [ht]

theorem queryFreqLoop_isSome (toks : List String) :
    ∀ tf, ∀ t : String,
      ((mapGet (queryFreqLoop tf toks) t).isSome = true ↔
        (mapGet tf t).isSome = true ∨ t ∈ toks.map normTok) := by
  induction toks with
  | nil => intro tf t; simp [queryFreqLoop]
  | cons trm rest ih =>
      intro tf t
      rw [queryFreqLoop]
      refine (ih _ t).trans ?_
      by_cases ht : t = normTok trm
      · subst ht
        simp [mapIncr, mapGet_mapSet_self]
      · rw [mapIncr, mapGet_mapSet_ne _ _ _ _ ht]
        simp only [List.map_cons, List.mem_cons]
        tauto

/-! ## Shape of `train` -/

theorem train_of_sanitize_error {v : VSM} {dc : Document} {e : String}
    (h : v.sanitize dc.Sentence = .error e) : v.train dc = (v, some e) := by
  simp [VSM.train, h]

theorem train_of_sanitize_ok {v : VSM} {dc : Document} {s : String}
    (h : v.sanitize dc.Sentence = .ok s) :
    v.train dc =
      ({ terms := trainSeenLoop (trainTermLoop (v.terms, [], []) (goSplitSpace s)).1
            (trainTermLoop (v.terms, [], []) (goSplitSpace s)).2.2,
         docs := v.docs ++
           [{ toDocument := dc,
              termFreq := (trainTermLoop (v.terms, [], []) (goSplitSpace s)).2.1 }],
         docsCount := v.docs.length + 1,
         transformer := v.transformer }, none) := by
  simp [VSM.train, h]

theorem sanitize_of_transformer_none {v : VSM} (h : v.transformer = none)
    (s : String) : v.sanitize s = .ok s := by
  simp [VSM.sanitize, h]

/-! ## `trainAll` lemmas -/

theorem trainAll_docsCount_pos (dcs : List Document) :
    ∀ v : VSM, 0 < v.docsCount → 0 < (trainAll v dcs).docsCount := by
  induction dcs with
  | nil => intro v h; exact h
  | cons d rest ih =>
      intro v h
      rw [trainAll]
      rcases hs : v.sanitize d.Sentence with e | s
      · rw [train_of_sanitize_error hs]; exact ih v h
      · rw [train_of_sanitize_ok hs]
        exact ih _ (Nat.succ_pos _)

theorem trainAll_eq_of_docsCount_zero (dcs : List Document) :
    ∀ v : VSM, (trainAll v dcs).docsCount = 0 → trainAll v dcs = v := by
  induction dcs with
  | nil => intro v _; rfl
  | cons d rest ih =>
      intro v h
      rw [trainAll] at h ⊢
      rcases hs : v.sanitize d.Sentence with e | s
      · rw [train_of_sanitize_error hs] at h ⊢; exact ih v h
      · exfalso
        have hpos : 0 < (v.train d).1.docsCount := by
          simp [train_of_sanitize_ok hs]
        have := trainAll_docsCount_pos rest (v.train d).1 hpos
        omega

/-! ## Selection-loop lemmas -/

theorem searchLoop_of_forall_le (store : List (String × Nat)) (totalDocs : Nat)
    (queryTF : List (String × Nat)) (queryMag : ℝ) :
    ∀ (ds : List document) (found : Option Document) (m : ℝ),
      (∀ d ∈ ds, simOf store totalDocs queryTF queryMag d ≤ m) →
      searchLoop store totalDocs queryTF queryMag found m ds = found := by
  intro ds
  induction ds with
  | nil => intro found m _; rfl
  | cons d rest ih =>
      intro found m h
      rw [searchLoop,
        if_neg (not_lt.mpr (h d (List.mem_cons_self _ _)))]
      exact ih found m fun x hx => h x (List.mem_cons_of_mem _ hx)

theorem searchLoop_first (store : List (String × Nat)) (totalDocs : Nat)
    (queryTF : List (String × Nat)) (queryMag : ℝ) :
    ∀ (pre : List document) (d : document) (post : List document)
      (found : Option Document) (m : ℝ),
      m < simOf store totalDocs queryTF queryMag d →
      (∀ x ∈ pre, simOf store totalDocs queryTF queryMag x <
        simOf store totalDocs queryTF queryMag d) →
      (∀ x ∈ post, simOf store totalDocs queryTF queryMag x ≤
        simOf store totalDocs queryTF queryMag d) →
      searchLoop store totalDocs queryTF queryMag found m (pre ++ d :: post) =
        some { Sentence := d.Sentence, Class := d.Class } := by
  intro pre
  induction pre with
  | nil =>
      intro d post found m hm _ hpost
      rw [List.nil_append, searchLoop, if_pos hm]
      exact searchLoop_of_forall_le _ _ _ _ post _ _ hpost
  | cons p pre' ih =>
      intro d post found m hm hpre hpost
      have hp : simOf store totalDocs queryTF queryMag p <
          simOf store totalDocs queryTF queryMag d :=
        hpre p (List.mem_cons_self _ _)
      have hpre' : ∀ x ∈ pre', simOf store totalDocs queryTF queryMag x <
          simOf store totalDocs queryTF queryMag d :=
        fun x hx => hpre x (List.mem_cons_of_mem _ hx)
      rw [List.cons_append, searchLoop]
      by_cases hmp : m < simOf store totalDocs queryTF queryMag p
      · rw [if_pos hmp]
        exact ih d post _ _ hp hpre' hpost
      · rw [if_neg hmp]
        exact ih d post _ _ hm hpre' hpost

theorem Search_of_sanitize_ok {v : VSM} {q q' : String}
    (h : v.sanitize q = .ok q') :
    v.Search q =
      .ok (searchLoop v.terms v.docsCount (queryTFOf q') (queryMagOf v q')
        none 0 v.docs) := by
  simp [VSM.Search, h]

/-! ## Document-frequency invariant lemmas -/

theorem countDocs_append_singleton (docs : List document) (r : document)
    (t : String) :
    countDocs (docs ++ [r]) t =
      countDocs docs t + (if (mapGet r.termFreq t).isSome then 1 else 0) := by
  by_cases h : (mapGet r.termFreq t).isSome
  · simp [countDocs, List.filter_append, h]
  · simp [countDocs, List.filter_append, h]

theorem train_step_invariant (v : VSM) (d : Document) (t : String)
    (h : (mapGet v.terms t).getD 0 = countDocs v.docs t) :
    (mapGet (v.train d).1.terms t).getD 0 = countDocs (v.train d).1.docs t := by
  rcases hs : v.sanitize d.Sentence with e | s
  · rw [train_of_sanitize_error hs]; exact h
  · rw [train_of_sanitize_ok hs]
    dsimp only
    have hnd : (trainTermLoop (v.terms, [], []) (goSplitSpace s)).2.2.Nodup :=
      trainTermLoop_seen_nodup _ _ (by simp)
    rw [trainSeenLoop_getD _ _ _ hnd, trainTermLoop_terms_getD, h,
      countDocs_append_singleton]
    have hmem : (t ∈ (trainTermLoop (v.terms, [], []) (goSplitSpace s)).2.2 ↔
        t ∈ (goSplitSpace s).map normTok) := by
      simpa using trainTermLoop_seen_mem (goSplitSpace s) (v.terms, [], []) t
    have hkey : ((mapGet (trainTermLoop (v.terms, [], []) (goSplitSpace s)).2.1
        t).isSome = true ↔ t ∈ (goSplitSpace s).map normTok) := by
      rw [trainTermLoop_tf]
      simpa [mapGet] using queryFreqLoop_isSome (goSplitSpace s) [] t
    by_cases hin : t ∈ (goSplitSpace s).map normTok
    · rw [if_pos (hmem.mpr hin), if_pos (hkey.mpr hin)]
    · rw [if_neg fun hc => hin (hmem.mp hc), if_neg fun hc => hin (hkey.mp hc)]

theorem trainAll_invariant (dcs : List Document) :
    ∀ v : VSM, (∀ t, (mapGet v.terms t).getD 0 = countDocs v.docs t) →
      ∀ t, (mapGet (trainAll v dcs).terms t).getD 0 =
        countDocs (trainAll v dcs).docs t := by
  induction dcs with
  | nil => intro v h t; exact h t
  | cons d rest ih =>
      intro v h t
      rw [trainAll]
      exact ih _ (fun t' => train_step_invariant v d t' (h t')) t

/-! ## Corpus-length invariant lemmas -/

theorem trainAllWithResults_len (dcs : List Document) :
    ∀ v : VSM, v.docsCount = v.docs.length →
      (trainAllWithResults v dcs).1.docsCount =
          (trainAllWithResults v dcs).1.docs.length ∧
        (trainAllWithResults v dcs).1.docs.length =
          v.docs.length +
            ((trainAllWithResults v dcs).2.filter fun e => e.isNone).length := by
  induction dcs with
  | nil => intro v h; exact ⟨h, by simp [trainAllWithResults]⟩
  | cons d rest ih =>
      intro v h
      rw [trainAllWithResults]
      dsimp only
      rcases hs : v.sanitize d.Sentence with e | s
      · obtain ⟨ih1, ih2⟩ := ih (v.train d).1
          (by rw [train_of_sanitize_error hs]; exact h)
        refine ⟨ih1, ?_⟩
        rw [ih2, show (v.train d).2 = some e by
            rw [train_of_sanitize_error hs],
          show (v.train d).1.docs.length = v.docs.length by
            rw [train_of_sanitize_error hs]]
        simp [List.filter_cons]
      · obtain ⟨ih1, ih2⟩ := ih (v.train d).1
          (by simp [train_of_sanitize_ok hs])
        refine ⟨ih1, ?_⟩
        rw [ih2, show (v.train d).2 = none by simp [train_of_sanitize_ok hs],
          show (v.train d).1.docs.length = v.docs.length + 1 by
            simp [train_of_sanitize_ok hs]]
        simp [List.filter_cons]
        omega

/-! ## `searchLogPairs` lemma -/

theorem queryLogPairs_empty_store (totalDocs : Nat) :
    ∀ tf, queryLogPairs [] totalDocs tf = [] := by
  intro tf
  induction tf with
  | nil => rfl
  | cons p rest ih =>
      obtain ⟨trm, freq⟩ := p
      simpa [queryLogPairs, mapGet] using ih

/-! ## Similarity comparisons for Scenario A

With `x = log(3/2)` and `y = log 3` (so `0 < x < y`), Scenario A's three
cosine similarities are `x² / (√(2x²+2y²)·√(2x²+y²))` for `d1`,
`(2y²+x²) / (√(5y²+2x²)·√(2x²+y²))` for `d2` and
`2x² / (√(4x²)·√(2x²+y²))` for `d3`; the three lemmas below order them. -/

theorem simIneqPos (x y : ℝ) (hx : 0 < x) (hxy : x < y) :
    0 < (2*y^2 + x^2) / (Real.sqrt (5*y^2 + 2*x^2) * Real.sqrt (2*x^2 + y^2)) := by
  have hy : 0 < y := hx.trans hxy
  have hB : (0:ℝ) < 5*y^2 + 2*x^2 := by positivity
  have hC : (0:ℝ) < 2*x^2 + y^2 := by positivity
  have hN : (0:ℝ) < 2*y^2 + x^2 := by positivity
  exact div_pos hN (mul_pos (Real.sqrt_pos.mpr hB) (Real.sqrt_pos.mpr hC))

theorem simIneqFirst (x y : ℝ) (hx : 0 < x) (hxy : x < y) :
    x^2 / (Real.sqrt (2*x^2 + 2*y^2) * Real.sqrt (2*x^2 + y^2)) <
      (2*y^2 + x^2) / (Real.sqrt (5*y^2 + 2*x^2) * Real.sqrt (2*x^2 + y^2)) := by
  have hy : 0 < y := hx.trans hxy
  have hA : (0:ℝ) < 2*x^2 + 2*y^2 := by positivity
  have hB : (0:ℝ) < 5*y^2 + 2*x^2 := by positivity
  have hC : (0:ℝ) < 2*x^2 + y^2 := by positivity
  have hsC : 0 < Real.sqrt (2*x^2 + y^2) := Real.sqrt_pos.mpr hC
  rw [div_lt_div_iff₀ (mul_pos (Real.sqrt_pos.mpr hA) hsC)
    (mul_pos (Real.sqrt_pos.mpr hB) hsC)]
  have key : x^2 * Real.sqrt (5*y^2 + 2*x^2) <
      (2*y^2 + x^2) * Real.sqrt (2*x^2 + 2*y^2) := by
    have hsq : (x^2 * Real.sqrt (5*y^2 + 2*x^2))^2 <
        ((2*y^2 + x^2) * Real.sqrt (2*x^2 + 2*y^2))^2 := by
      rw [mul_pow, mul_pow, Real.sq_sqrt hB.le, Real.sq_sqrt hA.le]
      nlinarith [mul_pos (mul_pos hy hy) (mul_pos (mul_pos hy hy) (mul_pos hy hy)),
        mul_pos (mul_pos hx hx) (mul_pos (mul_pos hy hy) (mul_pos hy hy)),
        mul_pos (mul_pos (mul_pos hx hx) (mul_pos hx hx)) (mul_pos hy hy)]
    exact lt_of_pow_lt_pow_left₀ 2 (by positivity) hsq
  calc x^2 * (Real.sqrt (5*y^2 + 2*x^2) * Real.sqrt (2*x^2 + y^2))
      = (x^2 * Real.sqrt (5*y^2 + 2*x^2)) * Real.sqrt (2*x^2 + y^2) := by ring
    _ < ((2*y^2 + x^2) * Real.sqrt (2*x^2 + 2*y^2)) * Real.sqrt (2*x^2 + y^2) :=
        mul_lt_mul_of_pos_right key hsC
    _ = (2*y^2 + x^2) * (Real.sqrt (2*x^2 + 2*y^2) * Real.sqrt (2*x^2 + y^2)) := by
        ring

theorem simIneqLater (x y : ℝ) (hx : 0 < x) (hxy : x < y) :
    2*x^2 / (Real.sqrt (4*x^2) * Real.sqrt (2*x^2 + y^2)) ≤
      (2*y^2 + x^2) / (Real.sqrt (5*y^2 + 2*x^2) * Real.sqrt (2*x^2 + y^2)) := by
  have hy : 0 < y := hx.trans hxy
  have hB : (0:ℝ) < 5*y^2 + 2*x^2 := by positivity
  have hC : (0:ℝ) < 2*x^2 + y^2 := by positivity
  have hsC : 0 < Real.sqrt (2*x^2 + y^2) := Real.sqrt_pos.mpr hC
  have h4 : Real.sqrt (4*x^2) = 2*x := by
    rw [show (4:ℝ)*x^2 = (2*x)^2 by ring]
    exact Real.sqrt_sq (by linarith)
  rw [h4, div_le_div_iff₀ (by positivity) (mul_pos (Real.sqrt_pos.mpr hB) hsC)]
  have key : x^2 * Real.sqrt (5*y^2 + 2*x^2) ≤ (2*y^2 + x^2) * x := by
    have hsq : (x^2 * Real.sqrt (5*y^2 + 2*x^2))^2 ≤ ((2*y^2 + x^2) * x)^2 := by
      rw [mul_pow, mul_pow, Real.sq_sqrt hB.le]
      have h1 : x^2 < y^2 := by nlinarith
      have h2 : (0:ℝ) ≤ 4*y^4 - x^2*y^2 - x^4 := by
        nlinarith [mul_lt_mul_of_pos_right h1 (mul_pos hy hy),
          mul_lt_mul_of_pos_right h1 (mul_pos hx hx)]
      nlinarith [mul_nonneg (sq_nonneg x) h2]
    exact le_of_pow_le_pow_left₀ two_ne_zero (by positivity) hsq
  calc 2*x^2 * (Real.sqrt (5*y^2 + 2*x^2) * Real.sqrt (2*x^2 + y^2))
      = (2 * Real.sqrt (2*x^2 + y^2)) * (x^2 * Real.sqrt (5*y^2 + 2*x^2)) := by ring
    _ ≤ (2 * Real.sqrt (2*x^2 + y^2)) * ((2*y^2 + x^2) * x) :=
        mul_le_mul_of_nonneg_left key (by positivity)
    _ = (2*y^2 + x^2) * (2*x * Real.sqrt (2*x^2 + y^2)) := by ring

/-! ## The claims -/

/-- C1: with no normalizer, after training `d1`, `d2`, `d3` in that order,
`Search("gold silver truck.")` returns the document labeled `d2`. -/
theorem C1_scenarioA_returns_d2 :
    vScenarioA.Search ("gold silver truck.") = .ok (some docD2) := by
  have htrans : vScenarioA.transformer = none := rfl
  have hq : vScenarioA.sanitize ("gold silver truck.") =
      .ok ("gold silver truck.") :=
    sanitize_of_transformer_none htrans _
  have hterms : vScenarioA.terms = storeA := by decide
  have hcount : vScenarioA.docsCount = 3 := by decide
  have hdocs : vScenarioA.docs = [recD1, recD2, recD3] := by decide
  have hqtf : queryTFOf ("gold silver truck.") = queryTFA := by decide
  have hx : (0:ℝ) < Real.log ((3:ℝ)/2) := Real.log_pos (by norm_num)
  have hxy : Real.log ((3:ℝ)/2) < Real.log (3:ℝ) :=
    Real.log_lt_log (by norm_num) (by norm_num)
  have hsum : querySumLoop storeA 3 queryTFA =
      2 * Real.log ((3:ℝ)/2) ^ 2 + Real.log (3:ℝ) ^ 2 := by
    simp only [querySumLoop, queryTFA, storeA, mapGet, idf, String.reduceEq,
      reduceIte]
    norm_num
    ring
  have hmag : queryMagOf vScenarioA ("gold silver truck.") =
      Real.sqrt (2 * Real.log ((3:ℝ)/2) ^ 2 + Real.log (3:ℝ) ^ 2) := by
    rw [queryMagOf, hqtf, hterms, hcount, hsum]
  have hd1 : docSumsLoop storeA 3 queryTFA recD1.termFreq =
      (2 * Real.log ((3:ℝ)/2) ^ 2 + 2 * Real.log (3:ℝ) ^ 2,
        Real.log ((3:ℝ)/2) ^ 2) := by
    simp only [docSumsLoop, queryTFA, storeA, recD1, mapGet, idf,
      String.reduceEq, reduceIte]
    norm_num
    constructor
    · ring
    · ring
  have hd2 : docSumsLoop storeA 3 queryTFA recD2.termFreq =
      (5 * Real.log (3:ℝ) ^ 2 + 2 * Real.log ((3:ℝ)/2) ^ 2,
        2 * Real.log (3:ℝ) ^ 2 + Real.log ((3:ℝ)/2) ^ 2) := by
    simp only [docSumsLoop, queryTFA, storeA, recD2, mapGet, idf,
      String.reduceEq, reduceIte]
    norm_num
    constructor
    · ring
    · ring
  have hd3 : docSumsLoop storeA 3 queryTFA recD3.termFreq =
      (4 * Real.log ((3:ℝ)/2) ^ 2, 2 * Real.log ((3:ℝ)/2) ^ 2) := by
    simp only [docSumsLoop, queryTFA, storeA, recD3, mapGet, idf,
      String.reduceEq, reduceIte]
    norm_num
    constructor
    · ring
    · ring
  have hs1 : simOf storeA 3 queryTFA
      (Real.sqrt (2 * Real.log ((3:ℝ)/2) ^ 2 + Real.log (3:ℝ) ^ 2)) recD1 =
      Real.log ((3:ℝ)/2) ^ 2 /
        (Real.sqrt (2 * Real.log ((3:ℝ)/2) ^ 2 + 2 * Real.log (3:ℝ) ^ 2) *
          Real.sqrt (2 * Real.log ((3:ℝ)/2) ^ 2 + Real.log (3:ℝ) ^ 2)) := by
    simp only [simOf, hd1]
  have hs2 : simOf storeA 3 queryTFA
      (Real.sqrt (2 * Real.log ((3:ℝ)/2) ^ 2 + Real.log (3:ℝ) ^ 2)) recD2 =
      (2 * Real.log (3:ℝ) ^ 2 + Real.log ((3:ℝ)/2) ^ 2) /
        (Real.sqrt (5 * Real.log (3:ℝ) ^ 2 + 2 * Real.log ((3:ℝ)/2) ^ 2) *
          Real.sqrt (2 * Real.log ((3:ℝ)/2) ^ 2 + Real.log (3:ℝ) ^ 2)) := by
    simp only [simOf, hd2]
  have hs3 : simOf storeA 3 queryTFA
      (Real.sqrt (2 * Real.log ((3:ℝ)/2) ^ 2 + Real.log (3:ℝ) ^ 2)) recD3 =
      2 * Real.log ((3:ℝ)/2) ^ 2 /
        (Real.sqrt (4 * Real.log ((3:ℝ)/2) ^ 2) *
          Real.sqrt (2 * Real.log ((3:ℝ)/2) ^ 2 + Real.log (3:ℝ) ^ 2)) := by
    simp only [simOf, hd3]
  rw [Search_of_sanitize_ok hq, hterms, hcount, hdocs, hqtf, hmag]
  refine congrArg Except.ok ?_
  rw [show ([recD1, recD2, recD3] : List document) =
    [recD1] ++ recD2 :: [recD3] from rfl]
  refine (searchLoop_first storeA 3 queryTFA _ [recD1] recD2 [recD3] none 0
    ?_ ?_ ?_).trans rfl
  · rw [hs2]
    exact simIneqPos _ _ hx hxy
  · intro z hz
    rw [List.mem_singleton] at hz
    subst hz
    rw [hs1, hs2]
    exact simIneqFirst _ _ hx hxy
  · intro z hz
    rw [List.mem_singleton] at hz
    subst hz
    rw [hs3, hs2]
    exact simIneqLater _ _ hx hxy

/-- C4: for every document input, if normalization fails then `train`
returns that error and the engine state — term statistics, corpus and
document counter — is exactly the state before the call. -/
theorem C4_train_error_no_side_effects (v : VSM)
    (f : String → Except String String) (dc : Document) (e : String)
    (h1 : v.transformer = some f) (h2 : f dc.Sentence = .error e) :
    v.train dc = (v, some e) := by
  apply train_of_sanitize_error
  simp [VSM.sanitize, h1, h2]

/-- Witness for C4 at the always-failing transformer stub. -/
theorem C4_witness :
    (New (some stubFail)).transformer = some stubFail ∧
      stubFail ({ Sentence := "", Class := "" } : Document).Sentence =
        .error ("stub failure") ∧
      (New (some stubFail)).train { Sentence := "", Class := "" } =
        (New (some stubFail), some ("stub failure")) :=
  ⟨rfl, rfl, C4_train_error_no_side_effects _ _ _ _ rfl rfl⟩

/-- C6: after any sequence of `train` calls, the `docsCount` counter equals
the corpus length, which equals the number of `train` calls that returned
no error. -/
theorem C6_counter_matches_corpus (tf : Option (String → Except String String))
    (dcs : List Document) :
    (trainAllWithResults (New tf) dcs).1.docsCount =
        (trainAllWithResults (New tf) dcs).1.docs.length ∧
      (trainAllWithResults (New tf) dcs).1.docs.length =
        ((trainAllWithResults (New tf) dcs).2.filter fun e => e.isNone).length := by
  have h := trainAllWithResults_len dcs (New tf) rfl
  simpa [New] using h

/-- C5: after any sequence of `train` calls, every term's `docsSeen`
equals the number of corpus records (successfully trained documents) whose
normalized token set — the key set of their term-frequency map — contains
that term; repeated occurrences inside one document count once. -/
theorem C5_docFrequency_distinct_docs
    (tf : Option (String → Except String String)) (dcs : List Document)
    (t : String) :
    (mapGet (trainAll (New tf) dcs).terms t).getD 0 =
      countDocs (trainAll (New tf) dcs).docs t := by
  exact trainAll_invariant dcs (New tf) (fun t' => by simp [New, countDocs, mapGet]) t

/-- C3 (amended): if the corpus is empty, then for every query whose
normalization succeeds, `Search` returns no match, and the call evaluates
no logarithm at all — in particular no logarithm of zero.  (As literally
stated the claim fails when the query's normalization fails: `Search` then
returns the normalization error rather than an absent result; see the
counterexample.) -/
theorem C3_empty_corpus_no_match (tf : Option (String → Except String String))
    (dcs : List Document) (q q' : String)
    (h0 : (trainAll (New tf) dcs).docsCount = 0)
    (hq : (trainAll (New tf) dcs).sanitize q = .ok q') :
    (trainAll (New tf) dcs).Search q = .ok none ∧
      searchLogPairs (trainAll (New tf) dcs) q = [] := by
  have hv := trainAll_eq_of_docsCount_zero dcs (New tf) h0
  rw [hv] at hq ⊢
  constructor
  · rw [Search_of_sanitize_ok hq]
    rfl
  · have hterms : (New tf).terms = [] := rfl
    have hdocs : (New tf).docs = [] := rfl
    simp only [searchLogPairs, hq, hterms, hdocs, queryLogPairs_empty_store,
      List.map_nil, List.flatten_nil, List.append_nil]

/-- Counterexample to C3 as stated: an empty-corpus engine whose normalizer
fails makes `Search` return an error, not the error-free absent result the
claim promises for every query. -/
theorem C3_counterexample :
    (New (some stubFail)).docsCount = 0 ∧
      VSM.Search (New (some stubFail)) ("gold") = .error ("stub failure") :=
  ⟨rfl, rfl⟩

/-- Witness for C3 (amended) at the freshly constructed engine. -/
theorem C3_witness :
    (trainAll (New none) []).docsCount = 0 ∧
      ((trainAll (New none) []).Search ("x") = .ok none ∧
        searchLogPairs (trainAll (New none) []) ("x") = []) :=
  ⟨rfl, C3_empty_corpus_no_match none [] "x" "x" rfl rfl⟩

/-- C8: if `Train`'s loop sees the cancellation signal first (no input item
consumed), exactly one result is published, it carries the cancellation
error, the output channel closes, and the engine state — in particular the
corpus — is unchanged. -/
theorem C8_cancelled_emits_one_outcome (v : VSM) (err : String)
    (evs : List TrainEvent) :
    v.Train (TrainEvent.cancelled err :: evs) =
      (v, [{ Doc := { Sentence := "", Class := "" }, Err := some err }], true) :=
  rfl

/-- C7: `DynamicTraining` returns — closing its output channel — at the
first input-channel-closed (or context-done) signal, and consumes and
publishes nothing after it. -/
theorem C7_dynamic_training_stops (v : VSM) (pre post : List DynEvent)
    (h : ∀ e ∈ pre, e.isRecv = true) :
    (v.DynamicTraining (pre ++ DynEvent.closed :: post) =
        v.DynamicTraining (pre ++ [DynEvent.closed]) ∧
      (v.DynamicTraining (pre ++ [DynEvent.closed])).2.2 = true) ∧
    (v.DynamicTraining (pre ++ DynEvent.ctxDone :: post) =
        v.DynamicTraining (pre ++ [DynEvent.ctxDone]) ∧
      (v.DynamicTraining (pre ++ [DynEvent.ctxDone])).2.2 = true) := by
  induction pre generalizing v with
  | nil => exact ⟨⟨rfl, rfl⟩, rfl, rfl⟩
  | cons e rest ih =>
      have he : e.isRecv = true := h e (List.mem_cons_self _ _)
      have h' : ∀ x ∈ rest, x.isRecv = true :=
        fun x hx => h x (List.mem_cons_of_mem _ hx)
      cases e with
      | recv d ready =>
          obtain ⟨⟨ih1, ih2⟩, ih3, ih4⟩ := ih h' (v := (v.StaticTraining d).1)
          refine ⟨⟨?_, ?_⟩, ?_, ?_⟩ <;>
            simp only [List.cons_append, VSM.DynamicTraining, List.append_eq]
          · rw [ih1]
          · exact ih2
          · rw [ih3]
          · exact ih4
      | closed => exact absurd he (by simp [DynEvent.isRecv])
      | ctxDone => exact absurd he (by simp [DynEvent.isRecv])

/-- Witness for C7: one delivered document, then the channel closes; a
stray event after the close is ignored. -/
theorem C7_witness :
    (∀ e ∈ [DynEvent.recv docEvX true], e.isRecv = true) ∧
      ((New none).DynamicTraining
          ([DynEvent.recv docEvX true] ++
            DynEvent.closed :: [DynEvent.recv docEvZ true]) =
        (New none).DynamicTraining
          ([DynEvent.recv docEvX true] ++ [DynEvent.closed]) ∧
        ((New none).DynamicTraining
          ([DynEvent.recv docEvX true] ++ [DynEvent.closed])).2.2 = true) :=
  ⟨by decide,
    (C7_dynamic_training_stops (New none) [DynEvent.recv docEvX true]
      [DynEvent.recv docEvZ true] (by decide)).1⟩

/-- C9: training and search tokenize identically — a successfully trained
document's stored term-frequency map is exactly the map `Search` builds
(`queryTFOf`, via the same split/trim/case-fold loop) for the same raw
string. -/
theorem C9_shared_tokenization (v : VSM) (dc : Document) (s : String)
    (hs : v.sanitize dc.Sentence = .ok s) :
    ∃ r, (v.train dc).1.docs = v.docs ++ [r] ∧ r.termFreq = queryTFOf s := by
  rw [train_of_sanitize_ok hs]
  refine ⟨_, rfl, ?_⟩
  dsimp only
  rw [trainTermLoop_tf]
  rfl

/-- Witness for C9 on a concrete sentence with a repeated token. -/
theorem C9_witness :
    (New none).sanitize ("a b a") = .ok ("a b a") ∧
      ∃ r, ((New none).train { Sentence := "a b a", Class := "w" }).1.docs =
          (New none).docs ++ [r] ∧ r.termFreq = queryTFOf ("a b a") :=
  ⟨rfl, C9_shared_tokenization (New none) { Sentence := "a b a", Class := "w" }
    "a b a" rfl⟩

/-- C2: `Search` chooses by strict greater-than on similarity, so the
earliest corpus record whose similarity is positive, strictly above every
earlier record's, and at least every later record's, is the one returned:
later records with equal or lower similarity never replace it, making
corpus insertion order the tie-break rule. -/
theorem C2_first_strict_max (v : VSM) (q q' : String) (pre : List document)
    (d : document) (post : List document)
    (hq : v.sanitize q = .ok q')
    (hsplit : v.docs = pre ++ d :: post)
    (hpos : 0 < docSim v q' d)
    (hbefore : ∀ x ∈ pre, docSim v q' x < docSim v q' d)
    (hafter : ∀ x ∈ post, docSim v q' x ≤ docSim v q' d) :
    v.Search q = .ok (some { Sentence := d.Sentence, Class := d.Class }) := by
  simp only [docSim] at hpos hbefore hafter
  rw [Search_of_sanitize_ok hq, hsplit]
  exact congrArg Except.ok
    (searchLoop_first v.terms v.docsCount (queryTFOf q') (queryMagOf v q')
      pre d post none 0 hpos hbefore hafter)

/-- Witness for C2 at a two-document-counter store with one record of
similarity one. -/
theorem C2_witness :
    0 < docSim vSel ("q") { Sentence := "s", Class := "c", termFreq := [("q", 1)] } ∧
      vSel.Search ("q") = .ok (some { Sentence := "s", Class := "c" }) := by
  have h2 : (0:ℝ) < Real.log 2 := Real.log_pos one_lt_two
  have hpos : 0 < docSim vSel ("q")
      { Sentence := "s", Class := "c", termFreq := [("q", 1)] } := by
    have hqtf : queryTFOf ("q") = [("q", 1)] := by decide
    have hterms : vSel.terms = [("q", 1)] := rfl
    have hcount : vSel.docsCount = 2 := rfl
    simp only [docSim, simOf, queryMagOf, hqtf, hterms, hcount]
    simp only [docSumsLoop, querySumLoop, mapGet, idf]
    norm_num
    rw [Real.sqrt_sq h2.le]
    exact h2.ne'
  exact ⟨hpos, C2_first_strict_max vSel "q" "q" []
    { Sentence := "s", Class := "c", termFreq := [("q", 1)] } [] rfl rfl hpos
    (by simp) (by simp)⟩

/-- C10: with no normalizer supplied, `train` never returns an error and
`Search` never returns an error, for every input string: the pluggable
transformer is the only error source on these paths. -/
theorem C10_no_normalizer_no_error (v : VSM) (h : v.transformer = none)
    (dc : Document) (q : String) :
    (v.train dc).2 = none ∧ ∃ res, v.Search q = .ok res := by
  constructor
  · rw [train_of_sanitize_ok (sanitize_of_transformer_none h dc.Sentence)]
  · exact ⟨_, Search_of_sanitize_ok (sanitize_of_transformer_none h q)⟩

/-- Witness for C10 at the empty sentence and empty query. -/
theorem C10_witness :
    (New none).transformer = none ∧
      (((New none).train { Sentence := "", Class := "" }).2 = none ∧
        ∃ res, (New none).Search ("") = .ok res) :=
  ⟨rfl, C10_no_normalizer_no_error (New none) rfl
    { Sentence := "", Class := "" } ""⟩

end GoVSM
